import Mathlib

/-!
Shallow embedding of the kronos-dashboard forecasting core
(src/core/pipeline.py, src/core/engine.py, src/core/model_manager.py,
src/main.py) and proofs about it.

Modelling conventions:
* pandas DataFrames of bars become `List Bar`; prediction DataFrames are
  modelled column-wise as a list of sample paths (`List (List ℝ)`),
  which is faithful under the rectangularity invariant (all paths share
  the horizon length).
* Float arithmetic is modelled over `ℝ`; the float `NaN` produced by
  `shift(1)` and by `std()` on fewer than two values is modelled with
  `Option ℝ` (`none` = NaN), and Python's `x > NaN = False` semantics by
  `optGT`.
* Timestamps are integers counting minutes; `pd.Timedelta(days=1)` is
  1440, `hours=1` is 60, `minutes=1` is 1.
* The external collaborators (data providers, the Kronos predictor,
  matplotlib, the web generator) are injected as parameters of a
  `CycleEnv`, and each invocation of one of them is recorded as an
  `Event`, so that claims about which collaborators a cycle invokes are
  statements about the produced event trace.
* Exceptions that the Python code lets propagate are modelled with
  `Except Unit`; `try/except` blocks are the points where an `.error` is
  converted back into a value.
-/

/-- One historical OHLCV observation (one row of the canonical DataFrame).
`opn` stands for the `open` column (`open` is a Lean keyword). -/
structure Bar where
  timestamp : ℤ
  opn : ℝ
  high : ℝ
  low : ℝ
  close : ℝ
  volume : ℝ
  amount : ℝ

/-- pandas `.tail(n)`: the last `n` rows (`tail 0` is empty, `tail n` of a
shorter frame is the whole frame). -/
def tailN (n : ℕ) (l : List α) : List α := l.drop (l.length - n)

/-- Python slice `l[-n:]` (pandas `.iloc[-n:]`): the last `n` elements, except
that `n = 0` gives `l[0:]`, the whole list, because `-0 == 0` in Python. -/
def ilocLast (n : ℕ) (l : List α) : List α :=
  if n = 0 then l else l.drop (l.length - n)

/-- Log returns of consecutive elements continuing from a previous value:
`logReturnsFrom p [a, b] = [log (a/p), log (b/a)]`. -/
noncomputable def logReturnsFrom (prev : ℝ) : List ℝ → List ℝ
  | [] => []
  | c :: cs => Real.log (c / prev) :: logReturnsFrom c cs

/-- `np.log(s / s.shift(1))` on a series of closes: the first entry is NaN
(modelled `none`), followed by the consecutive log returns. -/
noncomputable def logReturns : List ℝ → List (Option ℝ)
  | [] => []
  | c :: cs => none :: (logReturnsFrom c cs).map some

/-- The well-defined log returns of a series (no NaN entry): used to state
what the spec calls "the log returns over trailingHistory". -/
noncomputable def pureLogReturns : List ℝ → List ℝ
  | [] => []
  | c :: cs => logReturnsFrom c cs

/-- Sample standard deviation with `ddof = 1` of a plain list of reals. -/
noncomputable def sampleStd (v : List ℝ) : ℝ :=
  Real.sqrt ((v.map (fun x => (x - v.sum / v.length) ^ 2)).sum / ((v.length : ℝ) - 1))

/-- pandas `Series.std()` (default `skipna=True`, `ddof=1`): NaN entries are
dropped; with fewer than two remaining values the result is NaN (`none`). -/
noncomputable def seriesStd (xs : List (Option ℝ)) : Option ℝ :=
  if xs.reduceOption.length < 2 then none else some (sampleStd xs.reduceOption)

/-- `hist_log_returns.iloc[-vol_window:].std()` as computed in
`calculate_metrics` (src/core/pipeline.py lines 64-65). -/
noncomputable def histVolOf (closes : List ℝ) (vol_window : ℕ) : Option ℝ :=
  seriesStd (ilocLast vol_window (logReturns closes))

/-- Per-path predicted volatility from the amplification loop: prepend
`last_close` to the path, take log returns, then the sample std. -/
noncomputable def predictedVol (last_close : ℝ) (path : List ℝ) : Option ℝ :=
  seriesStd (logReturns (last_close :: path))

/-- Python float `>` under NaN semantics: a comparison involving NaN is
`False`. -/
def optGT : Option ℝ → Option ℝ → Prop
  | some a, some b => b < a
  | _, _ => False

open scoped Classical in
/-- `(final_hour_preds > last_close).mean()` numerator: how many final values
strictly exceed `c`. -/
noncomputable def countAbove (c : ℝ) : List ℝ → ℕ
  | [] => 0
  | x :: xs => (if c < x then 1 else 0) + countAbove c xs

open scoped Classical in
/-- The `amplification_count` loop of `calculate_metrics`: paths whose
predicted volatility compares strictly above the historical volatility. -/
noncomputable def ampCount (historical_vol : Option ℝ) (last_close : ℝ) :
    List (List ℝ) → ℕ
  | [] => 0
  | p :: ps =>
    (if optGT (predictedVol last_close p) historical_vol then 1 else 0) +
      ampCount historical_vol last_close ps

/-- `calculate_metrics(hist_df, close_preds_df, v_close_preds_df, vol_window)`
from src/core/pipeline.py lines 52-78.  Prediction frames are lists of sample
paths; `iloc[-1]` on the frame is the last entry of every path. -/
noncomputable def calculate_metrics (hist_df : List Bar)
    (close_preds_df v_close_preds_df : List (List ℝ)) (vol_window : ℕ) : ℝ × ℝ :=
  let last_close := (hist_df.map Bar.close).getLast?.getD 0
  let final_hour_preds := close_preds_df.map (fun p => p.getLast?.getD 0)
  let upside_prob :=
    (countAbove last_close final_hour_preds : ℝ) / (close_preds_df.length : ℝ)
  let historical_vol := histVolOf (hist_df.map Bar.close) vol_window
  let vol_amp_prob :=
    (ampCount historical_vol last_close v_close_preds_df : ℝ) /
      (v_close_preds_df.length : ℝ)
  (upside_prob, vol_amp_prob)

/-- pandas `Series.max()` over the timestamp column (0 on an empty series,
a case the claims never reach). -/
def tsMax : List ℤ → ℤ
  | [] => 0
  | a :: l => l.foldl max a

/-- `interval.lower()` at the character level. -/
def lowerChars (s : String) : List Char := s.data.map Char.toLower

/-- The step unit derived in `make_prediction` (src/core/pipeline.py lines
11-19): `'d' in interval.lower()` gives a daily step, else `'h'` an hourly
step, otherwise a minute step. -/
def intervalStep (interval : String) : ℤ :=
  if 'd' ∈ lowerChars interval then 1440
  else if 'h' ∈ lowerChars interval then 60
  else 1

/-- `pd.date_range(start=last_timestamp + td, periods=horizon, freq=...)`:
`horizon` points spaced by `step`, starting one step after `lastTs`. -/
def futureAxis (lastTs step : ℤ) (horizon : ℕ) : List ℤ :=
  (List.range horizon).map (fun i : ℕ => lastTs + step * ((i : ℤ) + 1))

/-- The `y_timestamp` future axis built by `make_prediction`. -/
def y_axis (df : List Bar) (interval : String) (pred_horizon : ℕ) : List ℤ :=
  futureAxis (tsMax (df.map Bar.timestamp)) (intervalStep interval) pred_horizon

/-- Arguments of `predictor.predict(...)` as invoked by `make_prediction`. -/
structure PredArgs where
  x_df : List Bar
  x_timestamp : List ℤ
  y_timestamp : List ℤ
  pred_len : ℕ
  T : ℚ
  top_p : ℚ
  sample_count : ℕ

/-- A forecast ensemble: a list of sampled paths (DataFrame columns). -/
abbrev Ensemble := List (List ℝ)

/-- One row of the aggregated metrics mapping built by the orchestrator. -/
structure ReportEntry where
  upside_prob : ℝ
  vol_amp_prob : ℝ
  chart_path : String

/-- The cycle report: `metrics` dict from instrument id to its entry. -/
abbrev Report := List (String × ReportEntry)

/-- Python dict assignment `metrics[symbol] = v`: overwrite an existing key,
otherwise append. -/
def insertReport (m : Report) (k : String) (v : ReportEntry) : Report :=
  if m.any (fun p => p.1 = k) then
    m.map (fun p => if p.1 = k then (k, v) else p)
  else m ++ [(k, v)]

/-- External-collaborator invocations recorded by a cycle. -/
inductive Event where
  | fetch (source symbol : String)
  | oracle (T : ℚ)
  | load
  | render (symbol : String)
  | publish (report : Report)

/-- The external world one cycle runs against: the data providers' behaviour,
the Kronos predictor's behaviour, whether matplotlib rendering succeeds per
symbol, whether the model load succeeds, and the mock-mode chart directory. -/
structure CycleEnv where
  fetch : String → String → String → ℕ → Option (List Bar)
  predict : PredArgs → Except Unit (Ensemble × Ensemble)
  renderOk : String → Bool
  loadOk : Bool
  chartsDirExists : Bool
  mockCharts : List String

/-- `make_prediction(df, predictor, pred_horizon, n_predictions, interval)`
from src/core/pipeline.py lines 7-49: build the future axis, then two
predictor calls (T=0.6 joint close/volume, T=0.9 close only).  An exception
from either call propagates. -/
noncomputable def make_prediction (df : List Bar)
    (predict : PredArgs → Except Unit (Ensemble × Ensemble))
    (pred_horizon n_predictions : ℕ) (interval : String) :
    List Event × Except Unit (Ensemble × Ensemble × Ensemble) :=
  let x_timestamp := df.map Bar.timestamp
  let y_timestamp := y_axis df interval pred_horizon
  match predict ⟨df, x_timestamp, y_timestamp, pred_horizon, 6/10, 9/10, n_predictions⟩ with
  | .error e => ([Event.oracle (6/10)], .error e)
  | .ok (close_preds_main, volume_preds_main) =>
    match predict ⟨df, x_timestamp, y_timestamp, pred_horizon, 9/10, 9/10, n_predictions⟩ with
    | .error e => ([Event.oracle (6/10), Event.oracle (9/10)], .error e)
    | .ok (close_preds_volatility, _) =>
      ([Event.oracle (6/10), Event.oracle (9/10)],
        .ok (close_preds_main, volume_preds_main, close_preds_volatility))

/-- `create_plot(...)` from src/core/pipeline.py lines 83-158: the entire body
is one try/except returning the saved chart path, or `None` when rendering
raises.  Whether matplotlib raises is the renderer boundary, injected as
`renderOk`. -/
def create_plot (renderOk : String → Bool) (hist_df : List Bar)
    (close_preds_df volume_preds_df : Ensemble) (symbol : String)
    (pred_horizon : ℕ) (interval : String) : Option String :=
  if renderOk symbol then some ("docs/static/chart/" ++ symbol ++ ".png")
  else none

/-- `ForecastResult` from src/core/engine.py: `chart_path` is `Optional`
because `create_plot` can return `None`. -/
structure ForecastResult where
  upside_prob : ℝ
  vol_amp_prob : ℝ
  chart_path : Option String

/-- `ForecastingEngine.run_for_symbol` from src/core/engine.py lines 20-56:
drop the newest bar, generate ensembles, compute metrics on the trailing
`vol_window` bars, render the chart, and wrap everything in a
`ForecastResult`.  `.error` is an exception propagating out (the engine has
no try/except); `.ok none` is the explicit `return None` for missing data. -/
noncomputable def run_for_symbol (df_full : List Bar)
    (predict : PredArgs → Except Unit (Ensemble × Ensemble))
    (renderOk : String → Bool) (symbol : String)
    (pred_horizon n_predictions hist_points vol_window : ℕ) (interval : String) :
    List Event × Except Unit (Option ForecastResult) :=
  if df_full.isEmpty then ([], .ok none)
  else
    let df_for_model := df_full.dropLast
    match make_prediction df_for_model predict pred_horizon n_predictions interval with
    | (tr, .error e) => (tr, .error e)
    | (tr, .ok (close_preds, volume_preds, v_close_preds)) =>
      let hist_df_for_plot := tailN hist_points df_for_model
      let hist_df_for_metrics := tailN vol_window df_for_model
      let m := calculate_metrics hist_df_for_metrics close_preds v_close_preds vol_window
      let chart_path := create_plot renderOk hist_df_for_plot close_preds
        volume_preds symbol pred_horizon interval
      (tr ++ [Event.render symbol], .ok (some ⟨m.1, m.2, chart_path⟩))

/-- The historical volatility actually used end-to-end: `run_for_symbol`
hands `df_for_model.tail(vol_window)` to `calculate_metrics`, which then
applies `histVolOf`. -/
noncomputable def histVolUsed (df_full : List Bar) (vol_window : ℕ) : Option ℝ :=
  histVolOf ((tailN vol_window df_full.dropLast).map Bar.close) vol_window

/-- Modelled from the spec's words (refinement target for claim C3): "take
the sample standard deviation of the most recent `vol_window` log returns"
of the trailing history. -/
noncomputable def histVolSpec (closes : List ℝ) (vol_window : ℕ) : ℝ :=
  sampleStd (tailN vol_window (pureLogReturns closes))

/-- `common` section defaults of src/core/config.py. -/
structure CommonCfg where
  pred_horizon : ℕ
  n_predictions : ℕ
  hist_points : ℕ
  vol_window : ℕ

/-- One configured data-source section: instrument list and interval. -/
structure SourceCfg where
  symbols : List String
  interval : String

/-- The parsed configuration: per-source sections plus the common section. -/
structure AppCfg where
  sources : String → Option SourceCfg
  common : CommonCfg

/-- `DataSourceManager.available()` from src/core/data_source.py. -/
def availableSources : List String := ["binance", "akshare"]

/-- `Path.relative_to(repo_path / 'docs')` on a chart path that starts with
`docs/`. -/
def relativeToDocs (p : String) : String := p.drop 5

/-- The body of the per-symbol loop of
`KronosForecastingApp._run_inference_mode` (src/main.py lines 126-157):
fetch, skip on missing/empty data, run the engine, and on a truthy result
store its metrics — where `result.chart_path.relative_to(...)` raises
(`.error`) when `chart_path` is `None`. -/
noncomputable def processSymbol (env : CycleEnv) (c : CommonCfg)
    (source interval symbol : String) (metrics : Report) :
    List Event × Except Unit Report :=
  let total_points := c.hist_points + c.vol_window
  match env.fetch source symbol interval total_points with
  | none => ([Event.fetch source symbol], .ok metrics)
  | some df_full =>
    if df_full.isEmpty then ([Event.fetch source symbol], .ok metrics)
    else
      match run_for_symbol df_full env.predict env.renderOk symbol
          c.pred_horizon c.n_predictions c.hist_points c.vol_window interval with
      | (tr, .error e) => (Event.fetch source symbol :: tr, .error e)
      | (tr, .ok none) => (Event.fetch source symbol :: tr, .ok metrics)
      | (tr, .ok (some result)) =>
        match result.chart_path with
        | none => (Event.fetch source symbol :: tr, .error ())
        | some p =>
          (Event.fetch source symbol :: tr,
            .ok (insertReport metrics symbol
              ⟨result.upside_prob, result.vol_amp_prob, relativeToDocs p⟩))

/-- The inner `for symbol in symbols` loop: sequential, with uncaught
exceptions aborting the remainder. -/
noncomputable def processSymbols (env : CycleEnv) (c : CommonCfg)
    (source interval : String) : List String → Report →
    List Event × Except Unit Report
  | [], metrics => ([], .ok metrics)
  | s :: ss, metrics =>
    match processSymbol env c source interval s metrics with
    | (tr, .error e) => (tr, .error e)
    | (tr, .ok m2) =>
      match processSymbols env c source interval ss m2 with
      | (tr2, r) => (tr ++ tr2, r)

/-- The outer `for source_name in self.data_manager.available()` loop of
`_run_inference_mode`, skipping sources absent from the configuration. -/
noncomputable def processSources (env : CycleEnv) (cfg : AppCfg) :
    List String → Report → List Event × Except Unit Report
  | [], metrics => ([], .ok metrics)
  | src :: rest, metrics =>
    match cfg.sources src with
    | none => processSources env cfg rest metrics
    | some sc =>
      match processSymbols env cfg.common src sc.interval sc.symbols metrics with
      | (tr, .error e) => (tr, .error e)
      | (tr, .ok m2) =>
        match processSources env cfg rest m2 with
        | (tr2, r) => (tr ++ tr2, r)

/-- `KronosForecastingApp._run_inference_mode` (src/main.py lines 109-159)
together with `_ensure_model_loaded` (lines 74-80): lazily load the model
(an exception from `ModelManager.load` propagates; `model_loaded` is set
only after a successful load), then process every configured source.
Returns (events, model_loaded afterwards, metrics or exception). -/
noncomputable def run_inference_mode (env : CycleEnv) (cfg : AppCfg)
    (model_loaded : Bool) : List Event × Bool × Except Unit Report :=
  if model_loaded then
    match processSources env cfg availableSources [] with
    | (tr, r) => (tr, true, r)
  else if env.loadOk then
    match processSources env cfg availableSources [] with
    | (tr, r) => (Event.load :: tr, true, r)
  else ([Event.load], false, .error ())

/-- `KronosForecastingApp._run_mock_mode` (src/main.py lines 82-107):
enumerate existing chart PNGs and synthesize fixed 0.5/0.5 entries. -/
noncomputable def run_mock_mode (env : CycleEnv) : Report :=
  if env.chartsDirExists then
    env.mockCharts.foldl
      (fun m sym =>
        insertReport m sym ⟨1/2, 1/2, "static/chart/" ++ sym ++ ".png"⟩) []
  else []

/-- `KronosForecastingApp.run_forecast` (src/main.py lines 161-191): one
cycle.  The surrounding try/except converts any escaped exception into a
`False` return; an empty metrics dict returns `False` without publishing;
otherwise the web generator (the report publisher) is invoked once.
Returns (events, success flag, model_loaded afterwards). -/
noncomputable def run_forecast (env : CycleEnv) (cfg : AppCfg) (mock : Bool)
    (model_loaded : Bool) : List Event × Bool × Bool :=
  if mock then
    let metrics := run_mock_mode env
    if metrics.isEmpty then ([], false, model_loaded)
    else ([Event.publish metrics], true, model_loaded)
  else
    match run_inference_mode env cfg model_loaded with
    | (tr, loaded2, .error _) => (tr, false, loaded2)
    | (tr, loaded2, .ok metrics) =>
      if metrics.isEmpty then (tr, false, loaded2)
      else (tr ++ [Event.publish metrics], true, loaded2)

/-- `KronosForecastingApp.run_scheduler` (src/main.py lines 193-202) over a
finite prefix of ticks: each tick runs `run_forecast`, threading the
process-lifetime `model_loaded` state; `run_forecast` never raises, so the
loop always continues.  Returns each cycle's (events, success). -/
noncomputable def runCycles (cfg : AppCfg) (mock : Bool) :
    List CycleEnv → Bool → List (List Event × Bool)
  | [], _ => []
  | e :: es, loaded =>
    match run_forecast e cfg mock loaded with
    | (tr, ok, loaded2) => (tr, ok) :: runCycles cfg mock es loaded2

/-- The publisher invocations contained in an event trace. -/
def publishEvents (l : List Event) : List Report :=
  l.filterMap (fun e => match e with | .publish r => some r | _ => none)

/-- The report a cycle aggregates, when the cycle reaches the
empty-report check of `run_forecast` (mock mode always does; inference mode
does unless an exception aborted it). -/
noncomputable def cycleReport (env : CycleEnv) (cfg : AppCfg) (mock : Bool)
    (model_loaded : Bool) : Option Report :=
  if mock then some (run_mock_mode env)
  else
    match run_inference_mode env cfg model_loaded with
    | (_, _, .ok m) => some m
    | (_, _, .error _) => none

/-! ## Concrete inputs used by witnesses and counterexamples -/

/-- Concrete two-bar hourly history for the C8 witness. -/
def dfC8 : List Bar := [⟨0, 1, 1, 1, 1, 1, 1⟩, ⟨60, 1, 1, 1, 1, 1, 1⟩]

/-- Single-bar history with last close 100 for the C5 witness. -/
noncomputable def histC5 : List Bar := [⟨0, 100, 100, 100, 100, 1, 1⟩]

/-- 30 one-step paths: 18 ending at 101 (> 100), 12 ending at 99. -/
noncomputable def pathsC5 : List (List ℝ) :=
  List.replicate 18 [101] ++ List.replicate 12 [99]

/-- Constant-price trailing history (closes 1, 1, 1): defined zero
historical volatility. -/
noncomputable def histC4z : List Bar :=
  [⟨0, 1, 1, 1, 1, 1, 1⟩, ⟨60, 1, 1, 1, 1, 1, 1⟩, ⟨120, 1, 1, 1, 1, 1, 1⟩]

/-- A volatile path for the C4 witness: e then 1 (log returns 1, -1). -/
noncomputable def vpathC4z : List ℝ := [Real.exp 1, 1]

/-- Two-bar trailing history (closes 1, e): only one log return, so the
historical volatility is NaN. -/
noncomputable def histC4 : List Bar :=
  [⟨0, 1, 1, 1, 1, 1, 1⟩,
   ⟨60, Real.exp 1, Real.exp 1, Real.exp 1, Real.exp 1, 1, 1⟩]

/-- A path with strictly positive predicted volatility for the C4
counterexample. -/
noncomputable def vpathC4 : List ℝ := [Real.exp 2, 1]

/-- Five bars whose model history (after dropping the newest bar) has closes
1, e, e, e. -/
noncomputable def dfC3 : List Bar :=
  [⟨0, 1, 1, 1, 1, 1, 1⟩,
   ⟨60, Real.exp 1, Real.exp 1, Real.exp 1, Real.exp 1, 1, 1⟩,
   ⟨120, Real.exp 1, Real.exp 1, Real.exp 1, Real.exp 1, 1, 1⟩,
   ⟨180, Real.exp 1, Real.exp 1, Real.exp 1, Real.exp 1, 1, 1⟩,
   ⟨240, 5, 5, 5, 5, 1, 1⟩]

/-- Data-provider environment that fails every fetch. -/
noncomputable def envProvFail : CycleEnv :=
  ⟨fun _ _ _ _ => none, fun _ => .error (), fun _ => true, true, false, []⟩

/-- The common configuration used by concrete witnesses. -/
def commonC : CommonCfg := ⟨1, 1, 2, 2⟩

/-- Mock-mode environment with a single existing chart "BTC". -/
noncomputable def envMock : CycleEnv :=
  ⟨fun _ _ _ _ => none, fun _ => .error (), fun _ => false, false, true,
    ["BTC"]⟩

/-- A configuration with no recognized data-source sections. -/
noncomputable def cfgEmpty : AppCfg := ⟨fun _ => none, ⟨1, 1, 2, 2⟩⟩

/-- A bar with all prices equal to `c` and timestamp `ts`. -/
def mkBar (ts : ℤ) (c : ℝ) : Bar := ⟨ts, c, c, c, c, 1, 1⟩

/-- Three constant-price bars. -/
noncomputable def df3 : List Bar := [mkBar 0 1, mkBar 60 1, mkBar 120 1]

/-- Configuration with one recognized source "binance" and symbols "A", "B". -/
noncomputable def cfg2 : AppCfg :=
  ⟨fun s => if s = "binance" then some ⟨["A", "B"], "1h"⟩ else none,
    ⟨1, 1, 2, 2⟩⟩

/-- Environment whose oracle fails every predict call. -/
noncomputable def envOracleFail : CycleEnv :=
  ⟨fun _ _ _ _ => some df3, fun _ => .error (), fun _ => true, true, false, []⟩

/-- Environment where data and oracle work but rendering fails for "A". -/
noncomputable def envRenderFail : CycleEnv :=
  ⟨fun _ _ _ _ => some df3, fun _ => .ok ([[1]], [[1]]), fun s => s == "B",
    true, false, []⟩

/-- Environment whose model load fails. -/
noncomputable def envLoadFail : CycleEnv :=
  ⟨fun _ _ _ _ => none, fun _ => .error (), fun _ => true, false, false, []⟩

/-- Environment whose model load succeeds (with nothing else configured). -/
noncomputable def envLoadOk : CycleEnv :=
  ⟨fun _ _ _ _ => none, fun _ => .error (), fun _ => true, true, false, []⟩

/-! ## Helper lemmas -/

lemma tsMax_sorted : ∀ (l : List ℤ), l ≠ [] → List.Chain' (· < ·) l →
    tsMax l = l.getLast?.getD 0
  | [], h, _ => absurd rfl h
  | [_], _, _ => rfl
  | a :: b :: t, _, h => by
    have hab : a < b := (List.chain'_cons.mp h).1
    have ih := tsMax_sorted (b :: t) (by simp) (List.chain'_cons.mp h).2
    show List.foldl max a (b :: t) = _
    have : List.foldl max a (b :: t) = List.foldl max (max a b) t := rfl
    rw [this, max_eq_right hab.le, List.getLast?_cons_cons]
    exact ih

lemma futureAxis_length (L s : ℤ) (n : ℕ) : (futureAxis L s n).length = n := by
  rw [futureAxis, List.length_map, List.length_range]

lemma futureAxis_chain (R : ℤ → ℤ → Prop) (L s : ℤ) (n : ℕ)
    (h : ∀ i : ℕ, R (L + s * (i + 1)) (L + s * (i + 2))) :
    List.Chain' R (futureAxis L s n) := by
  rw [futureAxis, List.chain'_map]
  cases n with
  | zero => simp
  | succ m =>
    rw [List.chain'_range_succ]
    intro i _
    have hi := h i
    have e1 : ((i : ℤ) + 2) = ((i : ℕ) + 1 : ℕ) + 1 := by push_cast; ring
    rw [e1] at hi
    exact hi

lemma futureAxis_head (L s : ℤ) (n : ℕ) (h : 1 ≤ n) :
    (futureAxis L s n).head? = some (L + s) := by
  cases n with
  | zero => omega
  | succ m => simp [futureAxis, List.range_succ_eq_map]

lemma intervalStep_pos (interval : String) : 0 < intervalStep interval := by
  unfold intervalStep
  split
  · norm_num
  · split <;> norm_num

/-! ## C8: future timestamp axis -/

/-- C8: for every history with at least 2 bars (strictly increasing
timestamps), every horizon ≥ 1 and every interval label, the future axis
built by `make_prediction` has length `horizon`, starts one derived step
after the last historical timestamp, is strictly increasing with constant
step equal to the unit derived by substring classification of the label
(day token → 1440 min, hour token → 60 min, otherwise 1 min), and depends
on the history only through its last timestamp (gap independence). -/
theorem c8_future_axis (df : List Bar) (interval : String) (horizon : ℕ)
    (hlen : 2 ≤ df.length)
    (hsorted : List.Chain' (· < ·) (df.map Bar.timestamp))
    (hh : 1 ≤ horizon) :
    (y_axis df interval horizon).length = horizon ∧
    (y_axis df interval horizon).head? =
      some ((df.map Bar.timestamp).getLast?.getD 0 + intervalStep interval) ∧
    List.Chain' (fun a b => b - a = intervalStep interval)
      (y_axis df interval horizon) ∧
    List.Chain' (· < ·) (y_axis df interval horizon) ∧
    (∀ df2 : List Bar,
      tsMax (df2.map Bar.timestamp) = tsMax (df.map Bar.timestamp) →
      y_axis df2 interval horizon = y_axis df interval horizon) ∧
    ('d' ∈ lowerChars interval → intervalStep interval = 1440) ∧
    ('d' ∉ lowerChars interval → 'h' ∈ lowerChars interval →
      intervalStep interval = 60) ∧
    ('d' ∉ lowerChars interval → 'h' ∉ lowerChars interval →
      intervalStep interval = 1) := by
  have hne : df.map Bar.timestamp ≠ [] := by
    cases df with
    | nil => simp at hlen
    | cons a t => simp
  have hmax : tsMax (df.map Bar.timestamp) = (df.map Bar.timestamp).getLast?.getD 0 :=
    tsMax_sorted _ hne hsorted
  refine ⟨futureAxis_length _ _ _, ?_, ?_, ?_, ?_, ?_, ?_, ?_⟩
  · rw [y_axis, hmax]
    exact futureAxis_head _ _ _ hh
  · exact futureAxis_chain _ _ _ _ (fun i => by ring)
  · refine futureAxis_chain _ _ _ _ (fun i => ?_)
    have hs := intervalStep_pos interval
    have : tsMax (df.map Bar.timestamp) + intervalStep interval * (i + 1) +
        intervalStep interval =
        tsMax (df.map Bar.timestamp) + intervalStep interval * (i + 2) := by ring
    linarith
  · intro df2 h2
    rw [y_axis, y_axis, h2]
  · intro hd
    rw [intervalStep, if_pos hd]
  · intro hd hhh
    rw [intervalStep, if_neg hd, if_pos hhh]
  · intro hd hhh
    rw [intervalStep, if_neg hd, if_neg hhh]

/-- Witness for C8 at a concrete input: two bars ending at t = 60, label
"1h", horizon 3; the axis has length 3 and starts at 120. -/
theorem c8_future_axis_witness :
    (2 ≤ dfC8.length) ∧ (1 ≤ 3) ∧ (y_axis dfC8 "1h" 3).length = 3 ∧
      (y_axis dfC8 "1h" 3).head? = some 120 := by
  have h := c8_future_axis dfC8 "1h" 3 (by decide) (by norm_num [dfC8]) (by norm_num)
  refine ⟨by decide, by norm_num, h.1, ?_⟩
  have hi : intervalStep "1h" = 60 := by decide
  rw [h.2.1, hi]
  norm_num [dfC8]

/-! ## Metric-engine lemmas -/

lemma calculate_metrics_fst (hist_df : List Bar)
    (close_preds_df v_close_preds_df : List (List ℝ)) (vol_window : ℕ) :
    (calculate_metrics hist_df close_preds_df v_close_preds_df vol_window).1 =
      (countAbove ((hist_df.map Bar.close).getLast?.getD 0)
        (close_preds_df.map (fun p => p.getLast?.getD 0)) : ℝ) /
        (close_preds_df.length : ℝ) := rfl

lemma calculate_metrics_snd (hist_df : List Bar)
    (close_preds_df v_close_preds_df : List (List ℝ)) (vol_window : ℕ) :
    (calculate_metrics hist_df close_preds_df v_close_preds_df vol_window).2 =
      (ampCount (histVolOf (hist_df.map Bar.close) vol_window)
        ((hist_df.map Bar.close).getLast?.getD 0) v_close_preds_df : ℝ) /
        (v_close_preds_df.length : ℝ) := rfl

open scoped Classical in
lemma countAbove_eq_countP (c : ℝ) (xs : List ℝ) :
    countAbove c xs = xs.countP (fun x => decide (c < x)) := by
  induction xs with
  | nil => rfl
  | cons a t ih =>
    rw [countAbove, List.countP_cons, ih]
    by_cases h : c < a
    · rw [if_pos h, if_pos (by simpa using h)]
      omega
    · rw [if_neg h, if_neg (by simpa using h)]
      omega

lemma countAbove_all (c : ℝ) (xs : List ℝ) (h : ∀ x ∈ xs, c < x) :
    countAbove c xs = xs.length := by
  induction xs with
  | nil => rfl
  | cons a t ih =>
    rw [countAbove, if_pos (h a (by simp)), ih (fun x hx => h x (by simp [hx]))]
    rw [List.length_cons]
    omega

lemma countAbove_zero (c : ℝ) (xs : List ℝ) (h : ∀ x ∈ xs, ¬ c < x) :
    countAbove c xs = 0 := by
  induction xs with
  | nil => rfl
  | cons a t ih =>
    rw [countAbove, if_neg (h a (by simp)), ih (fun x hx => h x (by simp [hx]))]

lemma countP_replicate (p : α → Bool) (n : ℕ) (a : α) :
    (List.replicate n a).countP p = if p a = true then n else 0 := by
  induction n with
  | zero => simp
  | succ m ih =>
    rw [List.replicate_succ, List.countP_cons, ih]
    by_cases h : p a = true
    · rw [if_pos h, if_pos h, if_pos h]
    · rw [if_neg h, if_neg h, if_neg h]

lemma optGT_none (x : Option ℝ) : ¬ optGT x none := by
  cases x <;> exact fun h => h

open scoped Classical in
lemma ampCount_all_of_zero (lc : ℝ) (ps : List (List ℝ))
    (h : ∀ p ∈ ps, ∃ v, predictedVol lc p = some v ∧ 0 < v) :
    ampCount (some 0) lc ps = ps.length := by
  induction ps with
  | nil => rfl
  | cons a t ih =>
    obtain ⟨v, hv, hvpos⟩ := h a (by simp)
    show (if optGT (predictedVol lc a) (some 0) then 1 else 0) +
        ampCount (some 0) lc t = _
    rw [hv, if_pos (show optGT (some v) (some 0) from hvpos),
      ih (fun p hp => h p (by simp [hp])), List.length_cons]
    omega

open scoped Classical in
lemma ampCount_none (lc : ℝ) (ps : List (List ℝ)) :
    ampCount none lc ps = 0 := by
  induction ps with
  | nil => rfl
  | cons a t ih =>
    show (if optGT (predictedVol lc a) none then 1 else 0) +
        ampCount none lc t = 0
    rw [if_neg (optGT_none _), ih]

/-! ## C5: upside probability -/

open scoped Classical in
/-- C5: for a non-empty main close ensemble and non-empty trailing history,
the upside probability computed by `calculate_metrics` is the fraction of
paths whose final horizon-step value strictly exceeds the last historical
close; it is 1 when every path ends above `last_close` and 0 when none
does. -/
theorem c5_upside_probability (hist_df : List Bar)
    (close_preds_df v_close_preds_df : List (List ℝ)) (vol_window : ℕ)
    (hne : close_preds_df ≠ []) (hh : hist_df ≠ []) :
    ((calculate_metrics hist_df close_preds_df v_close_preds_df vol_window).1 =
      (close_preds_df.countP (fun p =>
        decide ((hist_df.map Bar.close).getLast?.getD 0 < p.getLast?.getD 0)) : ℝ) /
        (close_preds_df.length : ℝ)) ∧
    ((∀ p ∈ close_preds_df,
        (hist_df.map Bar.close).getLast?.getD 0 < p.getLast?.getD 0) →
      (calculate_metrics hist_df close_preds_df v_close_preds_df vol_window).1 = 1) ∧
    ((∀ p ∈ close_preds_df,
        ¬ (hist_df.map Bar.close).getLast?.getD 0 < p.getLast?.getD 0) →
      (calculate_metrics hist_df close_preds_df v_close_preds_df vol_window).1 = 0) := by
  have hlen : (close_preds_df.length : ℝ) ≠ 0 := by
    simpa using hne
  refine ⟨?_, ?_, ?_⟩
  · rw [calculate_metrics_fst, countAbove_eq_countP, List.countP_map]
    congr 2
  · intro hall
    rw [calculate_metrics_fst, countAbove_all]
    · rw [List.length_map]
      exact div_self hlen
    · intro x hx
      obtain ⟨p, hp, rfl⟩ := List.mem_map.mp hx
      exact hall p hp
  · intro hnone
    rw [calculate_metrics_fst, countAbove_zero]
    · simp
    · intro x hx
      obtain ⟨p, hp, rfl⟩ := List.mem_map.mp hx
      exact hnone p hp

/-- Witness for C5: with 18 of 30 paths ending above a last close of 100,
the upside probability is 0.6. -/
theorem c5_upside_probability_witness :
    pathsC5 ≠ [] ∧ histC5 ≠ [] ∧
      (calculate_metrics histC5 pathsC5 [] 2).1 = 3 / 5 := by
  refine ⟨by simp [pathsC5], by simp [histC5], ?_⟩
  rw [(c5_upside_probability histC5 pathsC5 [] 2 (by simp [pathsC5])
    (by simp [histC5])).1]
  have hlc : (histC5.map Bar.close).getLast?.getD 0 = 100 := by
    simp [histC5]
  rw [hlc]
  have hc : pathsC5.countP
      (fun p => decide ((100 : ℝ) < p.getLast?.getD 0)) = 18 := by
    rw [pathsC5, List.countP_append, countP_replicate, countP_replicate]
    rw [if_pos (by norm_num), if_neg (by norm_num)]
  have hl : pathsC5.length = 30 := by simp [pathsC5]
  rw [hc, hl]
  norm_num

/-! ## C4: volatility amplification when historical volatility is zero or
undefined -/

/-- C4 (amended): when the historical volatility is a *defined* zero, every
path with strictly positive predicted volatility is counted as amplified by
the ordinary `predicted_vol > historical_vol` comparison, so the probability
is 1; but when the historical volatility is *undefined* (NaN), the NaN
comparison counts no path and the probability is 0, not 1 — there is no
explicit branch for this case in `calculate_metrics`. -/
theorem c4_zero_vs_undefined_hist_vol (hist_df : List Bar)
    (close_preds_df v_close_preds_df : List (List ℝ)) (vol_window : ℕ) :
    (histVolOf (hist_df.map Bar.close) vol_window = some 0 →
      v_close_preds_df ≠ [] →
      (∀ p ∈ v_close_preds_df, ∃ v,
        predictedVol ((hist_df.map Bar.close).getLast?.getD 0) p = some v ∧
          0 < v) →
      (calculate_metrics hist_df close_preds_df v_close_preds_df vol_window).2
        = 1) ∧
    (histVolOf (hist_df.map Bar.close) vol_window = none →
      (calculate_metrics hist_df close_preds_df v_close_preds_df vol_window).2
        = 0) := by
  constructor
  · intro hv hne hall
    rw [calculate_metrics_snd, hv, ampCount_all_of_zero _ _ hall]
    exact div_self (by simpa using hne)
  · intro hv
    rw [calculate_metrics_snd, hv, ampCount_none]
    simp

/-- Witness for C4 (amended): constant closes give historical volatility
`some 0`, the single volatile path gives probability 1. -/
theorem c4_zero_vs_undefined_hist_vol_witness :
    histVolOf (histC4z.map Bar.close) 2 = some 0 ∧
    (calculate_metrics histC4z [[1]] [vpathC4z] 2).2 = 1 := by
  have hv : histVolOf (histC4z.map Bar.close) 2 = some 0 := by
    norm_num [histVolOf, histC4z, logReturns, logReturnsFrom, ilocLast,
      seriesStd, sampleStd, Real.log_one, Real.sqrt_zero]
  have hlc : (histC4z.map Bar.close).getLast?.getD 0 = 1 := by
    simp [histC4z]
  have e1 : Real.log (Real.exp 1 / 1) = 1 := by
    rw [div_one, Real.log_exp]
  have e2 : Real.log (1 / Real.exp 1) = -1 := by
    rw [Real.log_div one_ne_zero (Real.exp_ne_zero 1), Real.log_one,
      Real.log_exp]
    ring
  have hpred : predictedVol ((histC4z.map Bar.close).getLast?.getD 0) vpathC4z
      = some (Real.sqrt 2) := by
    rw [hlc]
    norm_num [predictedVol, vpathC4z, logReturns, logReturnsFrom, seriesStd,
      sampleStd, e1, e2]
  refine ⟨hv, (c4_zero_vs_undefined_hist_vol histC4z [[1]] [vpathC4z] 2).1 hv
    (by simp) ?_⟩
  intro p hp
  rw [List.mem_singleton] at hp
  subst hp
  exact ⟨Real.sqrt 2, hpred, by positivity⟩

/-- C4 counterexample: historical volatility undefined (NaN), the single
path has strictly positive predicted volatility, yet the amplification
probability is 0, not 1 — the code has no explicit zero/undefined branch and
the NaN comparison counts no path as amplified. -/
theorem c4_counterexample :
    histVolOf (histC4.map Bar.close) 2 = none ∧
    predictedVol ((histC4.map Bar.close).getLast?.getD 0) vpathC4 =
      some (Real.sqrt (9 / 2)) ∧
    0 < Real.sqrt (9 / 2) ∧
    (calculate_metrics histC4 [[1]] [vpathC4] 2).2 = 0 := by
  have hv : histVolOf (histC4.map Bar.close) 2 = none := by
    norm_num [histVolOf, histC4, logReturns, logReturnsFrom, ilocLast,
      seriesStd]
  have hlc : (histC4.map Bar.close).getLast?.getD 0 = Real.exp 1 := by
    simp [histC4]
  have e1 : Real.log (Real.exp 2 / Real.exp 1) = 1 := by
    rw [← Real.exp_sub, Real.log_exp]
    norm_num
  have e2 : Real.log (1 / Real.exp 2) = -2 := by
    rw [Real.log_div one_ne_zero (Real.exp_ne_zero 2), Real.log_one,
      Real.log_exp]
    ring
  refine ⟨hv, ?_, by positivity, ?_⟩
  · rw [hlc]
    norm_num [predictedVol, vpathC4, logReturns, logReturnsFrom, seriesStd,
      sampleStd, e1, e2]
  · rw [calculate_metrics_snd, hv, ampCount_none]
    simp

/-! ## C3: which log returns feed the historical volatility -/

lemma logReturnsFrom_length (prev : ℝ) (cs : List ℝ) :
    (logReturnsFrom prev cs).length = cs.length := by
  induction cs generalizing prev with
  | nil => rfl
  | cons a t ih => rw [logReturnsFrom, List.length_cons, List.length_cons, ih]

lemma pureLogReturns_length : ∀ (cs : List ℝ),
    (pureLogReturns cs).length = cs.length - 1
  | [] => rfl
  | c :: t => by
    rw [pureLogReturns, logReturnsFrom_length, List.length_cons]
    omega

lemma pureLogReturns_drop (cs : List ℝ) :
    ∀ (k : ℕ), pureLogReturns (cs.drop k) = (pureLogReturns cs).drop k := by
  induction cs with
  | nil => intro k; simp [pureLogReturns]
  | cons c t ih =>
    intro k
    cases k with
    | zero => simp
    | succ m =>
      rw [List.drop_succ_cons]
      cases t with
      | nil => simp [pureLogReturns, logReturnsFrom]
      | cons c2 t2 =>
        rw [ih m]
        show (pureLogReturns (c2 :: t2)).drop m =
          (logReturnsFrom c (c2 :: t2)).drop (m + 1)
        rw [logReturnsFrom, List.drop_succ_cons]
        rfl

lemma reduceOption_map_some (xs : List α) : (xs.map some).reduceOption = xs := by
  induction xs with
  | nil => rfl
  | cons a t ih => rw [List.map_cons, List.reduceOption_cons_of_some, ih]

/-- C3 (amended): end-to-end, the orchestration hands only `vol_window`
trailing bars to `calculate_metrics` (`df_for_model.tail(vol_window)` in
`run_for_symbol`), so the historical volatility actually used is the sample
standard deviation of the most recent `vol_window - 1` log returns of the
model history — not of `vol_window` returns as the spec states (the slice's
first difference is NaN and `std` skips it). -/
theorem c3_hist_vol_window_off_by_one (df_full : List Bar) (vol_window : ℕ)
    (hw : 3 ≤ vol_window) (hlen : vol_window ≤ df_full.dropLast.length) :
    histVolUsed df_full vol_window =
      some (sampleStd (tailN (vol_window - 1)
        (pureLogReturns (df_full.dropLast.map Bar.close)))) := by
  set mcs := df_full.dropLast.map Bar.close with hmcs
  have hn : mcs.length = df_full.dropLast.length := by
    rw [hmcs, List.length_map]
  have hslice : (tailN vol_window df_full.dropLast).map Bar.close =
      mcs.drop (mcs.length - vol_window) := by
    rw [tailN, List.map_drop, hn, hmcs]
  have hslen : (mcs.drop (mcs.length - vol_window)).length = vol_window := by
    rw [List.length_drop]
    omega
  obtain ⟨c, rest, hcr⟩ := List.exists_cons_of_ne_nil
    (show mcs.drop (mcs.length - vol_window) ≠ [] by
      intro h0
      rw [h0] at hslen
      simp at hslen
      omega)
  have hrl : rest.length + 1 = vol_window := by
    rw [hcr, List.length_cons] at hslen
    omega
  rw [histVolUsed, hslice, hcr, histVolOf, logReturns]
  have hdz : (none :: (logReturnsFrom c rest).map some :
      List (Option ℝ)).length - vol_window = 0 := by
    rw [List.length_cons, List.length_map, logReturnsFrom_length]
    omega
  have hiloc : ilocLast vol_window
      (none :: (logReturnsFrom c rest).map some) =
      none :: (logReturnsFrom c rest).map some := by
    rw [ilocLast, if_neg (by omega), hdz, List.drop_zero]
  rw [hiloc, seriesStd, List.reduceOption_cons_of_none, reduceOption_map_some,
    if_neg (by rw [logReturnsFrom_length]; omega)]
  have hkey : logReturnsFrom c rest =
      tailN (vol_window - 1) (pureLogReturns mcs) := by
    have h1 : logReturnsFrom c rest =
        pureLogReturns (mcs.drop (mcs.length - vol_window)) := by
      rw [hcr, pureLogReturns]
    rw [h1, pureLogReturns_drop, tailN, pureLogReturns_length]
    congr 1
    omega
  rw [hkey]

/-- C3 counterexample: for `vol_window = 3` the model history has 4 bars
(satisfying the `vol_window + 1` precondition), whose most recent 3 log
returns are 1, 0, 0 with sample std `sqrt (1/3)`; but the pipeline's
historical volatility is 0, because the engine's `tail(vol_window)` slice
leaves only the last 2 log returns 0, 0. -/
theorem c3_counterexample :
    histVolUsed dfC3 3 = some 0 ∧
    histVolSpec (dfC3.dropLast.map Bar.close) 3 = Real.sqrt (1 / 3) ∧
    Real.sqrt (1 / 3) ≠ 0 ∧
    histVolUsed dfC3 3 ≠
      some (histVolSpec (dfC3.dropLast.map Bar.close) 3) := by
  have he : Real.log (Real.exp 1 / Real.exp 1) = 0 := by
    rw [div_self (Real.exp_ne_zero 1), Real.log_one]
  have h1 : Real.log (Real.exp 1 / 1) = 1 := by
    rw [div_one, Real.log_exp]
  have ha : histVolUsed dfC3 3 = some 0 := by
    norm_num [histVolUsed, histVolOf, dfC3, tailN, ilocLast, List.dropLast,
      logReturns, logReturnsFrom, seriesStd, sampleStd, he, Real.sqrt_zero]
  have hb : histVolSpec (dfC3.dropLast.map Bar.close) 3 = Real.sqrt (1 / 3) := by
    norm_num [histVolSpec, dfC3, tailN, List.dropLast, pureLogReturns,
      logReturnsFrom, sampleStd, he, h1]
  have hc : Real.sqrt (1 / 3) ≠ 0 := by positivity
  refine ⟨ha, hb, hc, ?_⟩
  rw [ha, hb]
  intro h
  exact hc (Option.some.inj h).symm

/-- Witness for C3 (amended) at the concrete input `dfC3`, `vol_window = 3`. -/
theorem c3_hist_vol_window_off_by_one_witness :
    (3 ≤ 3) ∧ (3 ≤ dfC3.dropLast.length) ∧
      histVolUsed dfC3 3 =
        some (sampleStd (tailN 2 (pureLogReturns (dfC3.dropLast.map Bar.close)))) := by
  refine ⟨by norm_num, by simp [dfC3], ?_⟩
  have h := c3_hist_vol_window_off_by_one dfC3 3 (by norm_num) (by simp [dfC3])
  simpa using h

/-! ## Event-trace lemmas for the orchestrator -/

lemma make_prediction_events (df : List Bar)
    (predict : PredArgs → Except Unit (Ensemble × Ensemble))
    (ph np : ℕ) (itv : String) :
    ∀ e ∈ (make_prediction df predict ph np itv).1, ∃ t, e = Event.oracle t := by
  intro e he
  simp only [make_prediction] at he
  split at he
  · simp at he
    exact ⟨6/10, he⟩
  · split at he
    · simp at he
      rcases he with h | h
      · exact ⟨6/10, h⟩
      · exact ⟨9/10, h⟩
    · simp at he
      rcases he with h | h
      · exact ⟨6/10, h⟩
      · exact ⟨9/10, h⟩

lemma run_for_symbol_events (df_full : List Bar)
    (predict : PredArgs → Except Unit (Ensemble × Ensemble))
    (renderOk : String → Bool) (symbol : String)
    (ph np hp w : ℕ) (itv : String) :
    ∀ e ∈ (run_for_symbol df_full predict renderOk symbol ph np hp w itv).1,
      (∃ t, e = Event.oracle t) ∨ e = Event.render symbol := by
  intro e he
  simp only [run_for_symbol] at he
  split at he
  · simp at he
  · split at he
    next tr err heq =>
      refine Or.inl (make_prediction_events df_full.dropLast predict ph np itv e ?_)
      rw [heq]
      exact he
    next tr trip heq =>
      rw [List.mem_append] at he
      rcases he with h | h
      · refine Or.inl (make_prediction_events df_full.dropLast predict ph np itv e ?_)
        rw [heq]
        exact h
      · simp at h
        exact Or.inr h

lemma processSymbol_events (env : CycleEnv) (c : CommonCfg)
    (source interval s : String) (metrics : Report) :
    ∀ e ∈ (processSymbol env c source interval s metrics).1,
      e = Event.fetch source s ∨ (∃ t, e = Event.oracle t) ∨
        e = Event.render s := by
  intro e he
  have hrfs : ∀ (df : List Bar) (tr : List Event)
      (res : Except Unit (Option ForecastResult)),
      run_for_symbol df env.predict env.renderOk s c.pred_horizon
        c.n_predictions c.hist_points c.vol_window interval = (tr, res) →
      e ∈ tr → (∃ t, e = Event.oracle t) ∨ e = Event.render s := by
    intro df tr res heq hmem
    refine run_for_symbol_events df env.predict env.renderOk s
      c.pred_horizon c.n_predictions c.hist_points c.vol_window interval e ?_
    rw [heq]
    exact hmem
  simp only [processSymbol] at he
  split at he
  · simp at he
    exact Or.inl he
  · split at he
    · simp at he
      exact Or.inl he
    · split at he
      next df hne tr err heq =>
        rcases List.mem_cons.mp he with h | h
        · exact Or.inl h
        · exact Or.inr (hrfs _ _ _ heq h)
      next df hne tr heq =>
        rcases List.mem_cons.mp he with h | h
        · exact Or.inl h
        · exact Or.inr (hrfs _ _ _ heq h)
      next df hne tr result heq =>
        split at he
        · rcases List.mem_cons.mp he with h | h
          · exact Or.inl h
          · exact Or.inr (hrfs _ _ _ heq h)
        · rcases List.mem_cons.mp he with h | h
          · exact Or.inl h
          · exact Or.inr (hrfs _ _ _ heq h)

lemma processSymbols_events (env : CycleEnv) (c : CommonCfg)
    (source interval : String) (syms : List String) :
    ∀ (metrics : Report),
      ∀ e ∈ (processSymbols env c source interval syms metrics).1,
        (∃ a b, e = Event.fetch a b) ∨ (∃ t, e = Event.oracle t) ∨
          (∃ a, e = Event.render a) := by
  induction syms with
  | nil =>
    intro metrics e he
    simp [processSymbols] at he
  | cons s ss ih =>
    intro metrics e he
    have hsym : ∀ (tr : List Event) (res : Except Unit Report),
        processSymbol env c source interval s metrics = (tr, res) →
        e ∈ tr → (∃ a b, e = Event.fetch a b) ∨ (∃ t, e = Event.oracle t) ∨
          (∃ a, e = Event.render a) := by
      intro tr res heq hmem
      rcases processSymbol_events env c source interval s metrics e
          (by rw [heq]; exact hmem) with h | h | h
      · exact Or.inl ⟨source, s, h⟩
      · exact Or.inr (Or.inl h)
      · exact Or.inr (Or.inr ⟨s, h⟩)
    simp only [processSymbols] at he
    split at he
    next tr err heq => exact hsym _ _ heq he
    next tr m2 heq =>
      rcases List.mem_append.mp he with h | h
      · exact hsym _ _ heq h
      · exact ih m2 e h

lemma processSources_events (env : CycleEnv) (cfg : AppCfg)
    (srcs : List String) :
    ∀ (metrics : Report),
      ∀ e ∈ (processSources env cfg srcs metrics).1,
        (∃ a b, e = Event.fetch a b) ∨ (∃ t, e = Event.oracle t) ∨
          (∃ a, e = Event.render a) := by
  induction srcs with
  | nil =>
    intro metrics e he
    simp [processSources] at he
  | cons src rest ih =>
    intro metrics e he
    simp only [processSources] at he
    split at he
    · exact ih metrics e he
    next sc hsc =>
      split at he
      next tr err heq =>
        refine processSymbols_events env cfg.common src sc.interval sc.symbols
          metrics e ?_
        rw [heq]
        exact he
      next tr m2 heq =>
        rcases List.mem_append.mp he with h | h
        · refine processSymbols_events env cfg.common src sc.interval
            sc.symbols metrics e ?_
          rw [heq]
          exact h
        · exact ih m2 e h

lemma no_publish_of_events (l : List Event)
    (h : ∀ e ∈ l, e = Event.load ∨ (∃ a b, e = Event.fetch a b) ∨
      (∃ t, e = Event.oracle t) ∨ (∃ a, e = Event.render a)) :
    publishEvents l = [] := by
  rw [publishEvents, List.filterMap_eq_nil_iff]
  intro e he
  rcases h e he with h1 | ⟨a, b, h1⟩ | ⟨t, h1⟩ | ⟨a, h1⟩ <;> subst h1 <;> rfl

lemma run_inference_mode_events (env : CycleEnv) (cfg : AppCfg) (b : Bool) :
    ∀ e ∈ (run_inference_mode env cfg b).1,
      e = Event.load ∨ (∃ a b2, e = Event.fetch a b2) ∨
        (∃ t, e = Event.oracle t) ∨ (∃ a, e = Event.render a) := by
  intro e he
  have hps : e ∈ (processSources env cfg availableSources []).1 →
      e = Event.load ∨ (∃ a b2, e = Event.fetch a b2) ∨
        (∃ t, e = Event.oracle t) ∨ (∃ a, e = Event.render a) := by
    intro hmem
    rcases processSources_events env cfg availableSources [] e hmem with
      h | h | h
    · exact Or.inr (Or.inl h)
    · exact Or.inr (Or.inr (Or.inl h))
    · exact Or.inr (Or.inr (Or.inr h))
  simp only [run_inference_mode] at he
  split at he
  · exact hps he
  · split at he
    · rcases List.mem_cons.mp he with h | h
      · exact Or.inl h
      · exact hps h
    · simp at he
      exact Or.inl he

lemma run_inference_mode_no_publish (env : CycleEnv) (cfg : AppCfg) (b : Bool) :
    publishEvents (run_inference_mode env cfg b).1 = [] := by
  refine no_publish_of_events _ ?_
  intro e he
  rcases run_inference_mode_events env cfg b e he with h | h | h | h
  · exact Or.inl h
  · exact Or.inr (Or.inl h)
  · exact Or.inr (Or.inr (Or.inl h))
  · exact Or.inr (Or.inr (Or.inr h))

lemma run_inference_mode_no_load_of_loaded (env : CycleEnv) (cfg : AppCfg) :
    Event.load ∉ (run_inference_mode env cfg true).1 := by
  intro he
  rw [run_inference_mode, if_pos rfl] at he
  rcases processSources_events env cfg availableSources [] Event.load he with
    ⟨a, b, h⟩ | ⟨t, h⟩ | ⟨a, h⟩ <;> exact Event.noConfusion h

lemma run_forecast_mock (env : CycleEnv) (cfg : AppCfg) (model_loaded : Bool) :
    run_forecast env cfg true model_loaded =
      if (run_mock_mode env).isEmpty then ([], false, model_loaded)
      else ([Event.publish (run_mock_mode env)], true, model_loaded) := by
  rw [run_forecast, if_pos rfl]

lemma run_forecast_inference (env : CycleEnv) (cfg : AppCfg)
    (model_loaded : Bool) :
    run_forecast env cfg false model_loaded =
      (match run_inference_mode env cfg model_loaded with
      | (tr, loaded2, .error _) => (tr, false, loaded2)
      | (tr, loaded2, .ok metrics) =>
        if metrics.isEmpty then (tr, false, loaded2)
        else (tr ++ [Event.publish metrics], true, loaded2)) := by
  rw [run_forecast, if_neg (by simp)]

lemma publishEvents_append (l1 l2 : List Event) :
    publishEvents (l1 ++ l2) = publishEvents l1 ++ publishEvents l2 :=
  List.filterMap_append l1 l2 _

lemma insertReport_mem (m : Report) (k : String) (v : ReportEntry)
    (p : String × ReportEntry) (hp : p ∈ insertReport m k v) :
    p ∈ m ∨ p = (k, v) := by
  rw [insertReport] at hp
  split at hp
  · rcases List.mem_map.mp hp with ⟨q, hq, hqe⟩
    by_cases hqk : q.1 = k
    · rw [if_pos hqk] at hqe
      exact Or.inr hqe.symm
    · rw [if_neg hqk] at hqe
      rw [← hqe]
      exact Or.inl hq
  · rcases List.mem_append.mp hp with h | h
    · exact Or.inl h
    · exact Or.inr (List.mem_singleton.mp h)

lemma foldl_insert_mem (f : String → ReportEntry) :
    ∀ (l : List String) (m : Report) (p : String × ReportEntry),
      p ∈ l.foldl (fun acc sym => insertReport acc sym (f sym)) m →
      p ∈ m ∨ (∃ sym ∈ l, p = (sym, f sym)) := by
  intro l
  induction l with
  | nil => intro m p hp; exact Or.inl hp
  | cons s t ih =>
    intro m p hp
    rw [List.foldl_cons] at hp
    rcases ih _ p hp with h | ⟨sym, hsym, hpe⟩
    · rcases insertReport_mem _ _ _ _ h with h2 | h2
      · exact Or.inl h2
      · exact Or.inr ⟨s, by simp, h2⟩
    · exact Or.inr ⟨sym, by simp [hsym], hpe⟩

/-! ## C6: provider failure skips the instrument -/

/-- C6: within a cycle, if the provider returns no data (`None`) or an empty
series for an instrument, that instrument is skipped (only its fetch is
recorded) and the remaining instruments are processed exactly as they would
have been without it: a provider failure never prevents later instruments'
metrics from being computed. -/
theorem c6_provider_failure_skips (env : CycleEnv) (c : CommonCfg)
    (source interval s1 : String) (rest : List String) (metrics : Report)
    (hfail :
      env.fetch source s1 interval (c.hist_points + c.vol_window) = none ∨
      env.fetch source s1 interval (c.hist_points + c.vol_window) = some []) :
    processSymbols env c source interval (s1 :: rest) metrics =
      (Event.fetch source s1 ::
          (processSymbols env c source interval rest metrics).1,
        (processSymbols env c source interval rest metrics).2) := by
  have hps : processSymbol env c source interval s1 metrics =
      ([Event.fetch source s1], .ok metrics) := by
    rcases hfail with h | h
    · simp [processSymbol, h]
    · simp [processSymbol, h]
  rcases h2 : processSymbols env c source interval rest metrics with ⟨tr2, r2⟩
  simp [processSymbols, hps, h2]

/-- Witness for C6: with the fetch for "A" failing, processing ["A", "B"]
records the fetch of "A" and continues exactly as processing ["B"]. -/
theorem c6_provider_failure_skips_witness :
    (envProvFail.fetch "binance" "A" "1h"
        (commonC.hist_points + commonC.vol_window) = none) ∧
    processSymbols envProvFail commonC "binance" "1h" ["A", "B"] [] =
      (Event.fetch "binance" "A" ::
          (processSymbols envProvFail commonC "binance" "1h" ["B"] []).1,
        (processSymbols envProvFail commonC "binance" "1h" ["B"] []).2) :=
  ⟨rfl, c6_provider_failure_skips envProvFail commonC "binance" "1h" "A" ["B"]
    [] (Or.inl rfl)⟩

/-! ## C7: empty report fails the cycle; otherwise publish exactly once -/

/-- C7: whenever a cycle aggregates its report (mock mode always; inference
mode when no exception escaped), an empty report makes the cycle return
failure with no publish call, and a non-empty report makes the cycle return
success with the publisher invoked exactly once, on the complete report. -/
theorem c7_empty_report_no_publish (env : CycleEnv) (cfg : AppCfg)
    (mock : Bool) (model_loaded : Bool) (r : Report)
    (hr : cycleReport env cfg mock model_loaded = some r) :
    (r = [] → (run_forecast env cfg mock model_loaded).2.1 = false ∧
      publishEvents (run_forecast env cfg mock model_loaded).1 = []) ∧
    (r ≠ [] → (run_forecast env cfg mock model_loaded).2.1 = true ∧
      publishEvents (run_forecast env cfg mock model_loaded).1 = [r]) := by
  cases mock with
  | true =>
    have hr2 : run_mock_mode env = r := by
      rw [cycleReport, if_pos rfl] at hr
      exact Option.some.inj hr
    rw [run_forecast_mock, hr2]
    constructor
    · intro h0
      subst h0
      exact ⟨rfl, rfl⟩
    · intro hne
      rw [if_neg (by simpa [List.isEmpty_iff] using hne)]
      exact ⟨rfl, rfl⟩
  | false =>
    rw [cycleReport, if_neg (by simp)] at hr
    rcases hinf : run_inference_mode env cfg model_loaded with ⟨tr, l2, res⟩
    rw [hinf] at hr
    have hnp : publishEvents tr = [] := by
      have h0 := run_inference_mode_no_publish env cfg model_loaded
      rw [hinf] at h0
      exact h0
    cases res with
    | error e => simp at hr
    | ok m =>
      have hm : m = r := by simpa using hr
      subst hm
      have hrf : run_forecast env cfg false model_loaded =
          if m.isEmpty then (tr, false, l2)
          else (tr ++ [Event.publish m], true, l2) := by
        rw [run_forecast_inference, hinf]
      constructor
      · intro h0
        subst h0
        rw [hrf]
        exact ⟨rfl, hnp⟩
      · intro hne
        rw [hrf, if_neg (by simpa [List.isEmpty_iff] using hne)]
        refine ⟨rfl, ?_⟩
        rw [publishEvents_append, hnp]
        rfl

/-- Witness for C7: a mock cycle with one chart has a non-empty report,
returns success, and publishes exactly once. -/
theorem c7_empty_report_no_publish_witness :
    cycleReport envMock cfgEmpty true false = some (run_mock_mode envMock) ∧
    run_mock_mode envMock ≠ [] ∧
    (run_forecast envMock cfgEmpty true false).2.1 = true ∧
    publishEvents (run_forecast envMock cfgEmpty true false).1 =
      [run_mock_mode envMock] := by
  have h := c7_empty_report_no_publish envMock cfgEmpty true false
    (run_mock_mode envMock) rfl
  have hne : run_mock_mode envMock ≠ [] := by
    rw [show run_mock_mode envMock =
      [("BTC", ⟨1/2, 1/2, "static/chart/BTC.png"⟩)] from rfl]
    simp
  exact ⟨rfl, hne, (h.2 hne).1, (h.2 hne).2⟩

/-! ## C9: mock mode touches no provider and no oracle -/

/-- C9: with the mock flag set, the cycle's event trace contains no provider
fetch, no oracle call and no model load; and every entry of the synthesized
report carries the fixed placeholder probabilities 0.5/0.5 and references a
previously rendered chart artifact from the chart directory. -/
theorem c9_mock_mode_isolated (env : CycleEnv) (cfg : AppCfg)
    (model_loaded : Bool) :
    (∀ e ∈ (run_forecast env cfg true model_loaded).1,
      (∀ a b, e ≠ Event.fetch a b) ∧ (∀ t, e ≠ Event.oracle t) ∧
        e ≠ Event.load) ∧
    (∀ sym ent, (sym, ent) ∈ run_mock_mode env →
      ent.upside_prob = 1/2 ∧ ent.vol_amp_prob = 1/2 ∧
        ent.chart_path = "static/chart/" ++ sym ++ ".png" ∧
        sym ∈ env.mockCharts) := by
  constructor
  · intro e he
    rw [run_forecast_mock] at he
    by_cases hm : (run_mock_mode env).isEmpty
    · rw [if_pos hm] at he
      simp at he
    · rw [if_neg hm] at he
      simp only [List.mem_singleton] at he
      subst he
      exact ⟨fun a b h => Event.noConfusion h, fun t h => Event.noConfusion h,
        fun h => Event.noConfusion h⟩
  · intro sym ent hmem
    rw [run_mock_mode] at hmem
    split at hmem
    · rcases foldl_insert_mem
          (fun sym => ⟨1/2, 1/2, "static/chart/" ++ sym ++ ".png"⟩)
          env.mockCharts [] (sym, ent) hmem with h | ⟨s2, hs2, hpe⟩
      · simp at h
      · have h1 : sym = s2 := congrArg Prod.fst hpe
        have h2 : ent =
            ⟨1/2, 1/2, "static/chart/" ++ s2 ++ ".png"⟩ :=
          congrArg Prod.snd hpe
        subst h1
        rw [h2]
        exact ⟨rfl, rfl, rfl, hs2⟩
    · simp at hmem

/-- Witness for C9 at a concrete mock environment with one chart. -/
theorem c9_mock_mode_isolated_witness :
    Event.load ∉ (run_forecast envMock cfgEmpty true false).1 ∧
    "BTC" ∈ envMock.mockCharts := by
  constructor
  · intro h
    exact ((c9_mock_mode_isolated envMock cfgEmpty false).1 Event.load h).2.2
      rfl
  · exact ((c9_mock_mode_isolated envMock cfgEmpty false).2 "BTC"
      ⟨1/2, 1/2, "static/chart/BTC.png"⟩ (by
        rw [show run_mock_mode envMock =
          [("BTC", ⟨1/2, 1/2, "static/chart/BTC.png"⟩)] from rfl]
        exact List.mem_singleton.mpr rfl)).2.2.2

/-! ## C2: oracle failure aborts the whole cycle, not just the instrument -/

/-- C2 (amended): an oracle failure during a per-instrument inference call is
not caught at per-instrument granularity: the exception propagates out of the
per-symbol loop, so no later instrument of the cycle is processed, and it is
converted into a cycle-level failure only by `run_forecast`'s try/except. -/
theorem c2_oracle_failure_aborts_cycle (env : CycleEnv) (cfg : AppCfg)
    (source interval s : String) (rest : List String) (metrics : Report)
    (tr : List Event)
    (herr : processSymbol env cfg.common source interval s metrics =
      (tr, .error ())) :
    processSymbols env cfg.common source interval (s :: rest) metrics =
      (tr, .error ()) ∧
    (∀ (model_loaded : Bool) (tr2 : List Event) (l2 : Bool),
      run_inference_mode env cfg model_loaded = (tr2, l2, .error ()) →
      run_forecast env cfg false model_loaded = (tr2, false, l2)) := by
  constructor
  · rw [processSymbols, herr]
  · intro ml tr2 l2 hinf
    rw [run_forecast_inference, hinf]

/-- C2 counterexample: with the oracle failing on instrument "A", the cycle
aborts — "B" is never fetched, nothing is published, and the cycle returns
failure — contradicting the claim that the failure is caught per instrument
and later instruments still get their metrics. -/
theorem c2_counterexample :
    run_forecast envOracleFail cfg2 false false =
      ([Event.load, Event.fetch "binance" "A", Event.oracle (6/10)],
        false, true) ∧
    Event.fetch "binance" "B" ∉
      (run_forecast envOracleFail cfg2 false false).1 ∧
    publishEvents (run_forecast envOracleFail cfg2 false false).1 = [] := by
  refine ⟨rfl, ?_, rfl⟩
  rw [show (run_forecast envOracleFail cfg2 false false).1 =
    [Event.load, Event.fetch "binance" "A", Event.oracle (6/10)] from rfl]
  intro h
  simp at h

/-- Witness for C2 (amended) at the concrete oracle-failure environment. -/
theorem c2_oracle_failure_aborts_cycle_witness :
    processSymbols envOracleFail cfg2.common "binance" "1h" ["A", "B"] [] =
      ([Event.fetch "binance" "A", Event.oracle (6/10)], .error ()) :=
  (c2_oracle_failure_aborts_cycle envOracleFail cfg2 "binance" "1h" "A" ["B"]
    [] [Event.fetch "binance" "A", Event.oracle (6/10)] rfl).1

/-! ## C1: renderer failure aborts the cycle (code bug) -/

/-- C1 at the failing input: rendering fails for "A", so `create_plot`
returns `None`; the engine still returns a truthy `ForecastResult`, and the
orchestrator's `result.chart_path.relative_to(...)` raises — the exception
escapes the per-symbol loop: the cycle returns failure, "B" is never
fetched, and nothing is published (instead of "A" being excluded and the
cycle continuing). -/
theorem c1_renderer_failure_aborts_cycle :
    create_plot envRenderFail.renderOk (tailN 2 df3.dropLast) [[1]] [[1]]
      "A" 1 "1h" = none ∧
    run_forecast envRenderFail cfg2 false false =
      ([Event.load, Event.fetch "binance" "A", Event.oracle (6/10),
        Event.oracle (9/10), Event.render "A"], false, true) ∧
    Event.fetch "binance" "B" ∉
      (run_forecast envRenderFail cfg2 false false).1 ∧
    publishEvents (run_forecast envRenderFail cfg2 false false).1 = [] := by
  refine ⟨rfl, rfl, ?_, rfl⟩
  rw [show (run_forecast envRenderFail cfg2 false false).1 =
    [Event.load, Event.fetch "binance" "A", Event.oracle (6/10),
      Event.oracle (9/10), Event.render "A"] from rfl]
  intro h
  simp at h

/-! ## C10: model-load lifecycle across cycles -/

lemma processSources_no_load (env : CycleEnv) (cfg : AppCfg)
    (srcs : List String) (metrics : Report) :
    Event.load ∉ (processSources env cfg srcs metrics).1 := by
  intro h
  rcases processSources_events env cfg srcs metrics Event.load h with
    ⟨a, b, hh⟩ | ⟨t, hh⟩ | ⟨a, hh⟩ <;> exact Event.noConfusion hh

lemma run_inference_mode_loaded (env : CycleEnv) (cfg : AppCfg) :
    run_inference_mode env cfg true =
      ((processSources env cfg availableSources []).1, true,
        (processSources env cfg availableSources []).2) := rfl

lemma run_forecast_loaded_no_load (env : CycleEnv) (cfg : AppCfg) :
    Event.load ∉ (run_forecast env cfg false true).1 ∧
    (run_forecast env cfg false true).2.2 = true := by
  rw [run_forecast_inference, run_inference_mode_loaded]
  rcases hps : (processSources env cfg availableSources []).2 with err | m
  · exact ⟨processSources_no_load env cfg availableSources [], rfl⟩
  · by_cases hm : m.isEmpty
    · dsimp only
      rw [if_pos hm]
      exact ⟨processSources_no_load env cfg availableSources [], rfl⟩
    · dsimp only
      rw [if_neg hm]
      refine ⟨?_, rfl⟩
      intro h
      rcases List.mem_append.mp h with h1 | h1
      · exact processSources_no_load env cfg availableSources [] h1
      · simp at h1

/-- C10 (amended): the oracle is *successfully* initialized at most once per
process — once a cycle has the model loaded, no later cycle loads again and
the cycle state stays loaded; but a failed initialization is not fatal to
the process: the failing cycle emits only the load attempt and returns
failure, and under the scheduler the next cycle runs and retries
initialization with the model-loaded state unchanged. -/
theorem c10_model_load_lifecycle :
    (∀ (cfg : AppCfg) (envs : List CycleEnv) (t : List Event × Bool),
      t ∈ runCycles cfg false envs true → Event.load ∉ t.1) ∧
    (∀ (cfg : AppCfg) (env : CycleEnv) (envs : List CycleEnv),
      env.loadOk = false →
      runCycles cfg false (env :: envs) false =
        ([Event.load], false) :: runCycles cfg false envs false) := by
  constructor
  · intro cfg envs
    induction envs with
    | nil => intro t ht; simp [runCycles] at ht
    | cons e es ih =>
      intro t ht
      have h2 := run_forecast_loaded_no_load e cfg
      rcases hrf : run_forecast e cfg false true with ⟨tr, ok, l2⟩
      rw [hrf] at h2
      have hl2 : l2 = true := h2.2
      rw [runCycles, hrf] at ht
      rcases List.mem_cons.mp ht with h | h
      · rw [h]
        exact h2.1
      · rw [hl2] at h
        exact ih t h
  · intro cfg env envs h
    have hrf : run_forecast env cfg false false =
        ([Event.load], false, false) := by
      rw [run_forecast, if_neg (by simp), run_inference_mode,
        if_neg (by simp), if_neg (by simp [h])]
    rw [runCycles, hrf]

/-- C10 counterexample: the first cycle's model load fails, yet a second
cycle still runs and attempts initialization again (another `load` event) —
contradicting "initialization failure is fatal to the process" and "the
oracle is initialized at most once, on the first non-mock cycle". -/
theorem c10_counterexample :
    envLoadFail.loadOk = false ∧
    runCycles cfgEmpty false [envLoadFail, envLoadOk] false =
      [([Event.load], false), ([Event.load], false)] :=
  ⟨rfl, rfl⟩

/-- Witness for C10 (amended) at concrete environments. -/
theorem c10_model_load_lifecycle_witness :
    Event.load ∉ ([] : List Event) ∧
    runCycles cfgEmpty false (envLoadFail :: [envLoadOk]) false =
      ([Event.load], false) :: runCycles cfgEmpty false [envLoadOk] false := by
  constructor
  · exact c10_model_load_lifecycle.1 cfgEmpty [envLoadOk] ([], false)
      (by rw [show runCycles cfgEmpty false [envLoadOk] true =
        [([], false)] from rfl]; exact List.mem_singleton.mpr rfl)
  · exact c10_model_load_lifecycle.2 cfgEmpty envLoadFail [envLoadOk] rfl
